import Mathlib

/-!
# Verification of the DelFTa calculation orchestration engine

A shallow embedding of the DelFTa property-prediction pipeline
(`DelftaCalculator.predict` and its components: MoleculeNormalizer,
BaselineRunner, TaskResolver, ModelRunner, ResultAggregator).

The repository's Python implementation (`delfta/calculator.py`,
`delfta/xtb.py`, `delfta/net_utils.py`) is not part of the source tree
available here; only the README and the tutorial notebook
`tutorials/calculator_options.ipynb` are.  The pipeline is therefore
modelled from the specification (and from the notebook's documented
options, defaults and logged execution order), with the external
collaborators (OpenBabel embedding, the GFN2-xTB engine, the trained
networks) abstracted as deterministic functions of the molecule, and
their per-molecule failure behaviour abstracted as flags carried by the
molecule handle.
-/

set_option autoImplicit false

namespace Delfta

/-- Modelled from the spec: the enumerated property identifiers of the
calculator (`E_form`, `E_homo`, `E_lumo`, `E_gap`, `dipole`, `charges`,
`wbo`), as listed in the tasks table of `calculator_options.ipynb`. -/
inductive PropertyKey where
  | E_form | E_homo | E_lumo | E_gap | dipole | charges | wbo
  deriving DecidableEq, Repr, Fintype, Inhabited

/-- Modelled from the spec: the loadable predictor identifiers.  The
notebook's `predict` log names the delta-mode models
`single_energy_delta`, `charges_delta`, `multitask_delta`, `wbo_delta`;
direct mode has the analogous `_direct` checkpoints. -/
inductive ModelId where
  | single_energy_delta | charges_delta | multitask_delta | wbo_delta
  | single_energy_direct | charges_direct | multitask_direct | wbo_direct
  deriving DecidableEq, Repr, Fintype, Inhabited

/-- All property keys, in the order of the notebook's tasks table
(the meaning of `tasks=None`). -/
def allKeys : List PropertyKey :=
  [.E_form, .E_homo, .E_lumo, .E_gap, .dipole, .charges, .wbo]

/-- `charges` and `wbo` are per-atom / per-bond vectors; every other key
is a per-molecule scalar (the notebook reports `dipole` as a scalar
magnitude). -/
def isScalar : PropertyKey → Bool
  | .charges => false
  | .wbo => false
  | _ => true

/-- Modelled from the spec: the PropertyKeys produced by each model.
HOMO/LUMO/gap energies and the dipole are predicted by the multi-task
network; formation energy, charges and bond orders each have their own
single-output network. -/
def modelKeys : ModelId → List PropertyKey
  | .single_energy_delta => [.E_form]
  | .single_energy_direct => [.E_form]
  | .charges_delta => [.charges]
  | .charges_direct => [.charges]
  | .wbo_delta => [.wbo]
  | .wbo_direct => [.wbo]
  | .multitask_delta => [.E_homo, .E_lumo, .E_gap, .dipole]
  | .multitask_direct => [.E_homo, .E_lumo, .E_gap, .dipole]

/-- Whether a model is a delta-mode model. -/
def modelMode : ModelId → Bool
  | .single_energy_delta => true
  | .charges_delta => true
  | .multitask_delta => true
  | .wbo_delta => true
  | _ => false

/-- Modelled from the spec: the owning model of each PropertyKey in the
given mode (`true` = delta).  A PropertyKey belongs to exactly one
ModelSpec per mode. -/
def keyModel (mode : Bool) : PropertyKey → ModelId
  | .E_form => if mode then .single_energy_delta else .single_energy_direct
  | .charges => if mode then .charges_delta else .charges_direct
  | .wbo => if mode then .wbo_delta else .wbo_direct
  | .E_homo => if mode then .multitask_delta else .multitask_direct
  | .E_lumo => if mode then .multitask_delta else .multitask_direct
  | .E_gap => if mode then .multitask_delta else .multitask_direct
  | .dipole => if mode then .multitask_delta else .multitask_direct

/-- The canonical model order of a mode, matching the execution order of
the notebook's `predict` log (`single_energy`, `charges`, `multitask`,
`wbo`). -/
def modelOrder (mode : Bool) : List ModelId :=
  if mode then [.single_energy_delta, .charges_delta, .multitask_delta, .wbo_delta]
  else [.single_energy_direct, .charges_direct, .multitask_direct, .wbo_direct]

/-- Modelled from the spec: `TaskResolver.resolve` for requested
PropertyKeys — look up the owning model of each requested key in the
given mode and deduplicate, so that a multi-task model appears once even
if several of its keys were requested.  The result is kept in the
canonical execution order. -/
def resolve (mode : Bool) (ks : List PropertyKey) : List ModelId :=
  (modelOrder mode).filter fun mid => ks.any fun k => keyModel mode k == mid

/-- Modelled from the spec: `TaskResolver` entry point for explicit
model identifiers — each is loaded as a ModelSpec directly; the plan is
the deduplicated list. -/
def resolveModels (ms : List ModelId) : List ModelId :=
  ms.dedup

/-- Modelled from the spec: the PropertyKeys inferred from an explicit
model list (the union of each model's declared outputs). -/
def inferredKeys (ms : List ModelId) : List PropertyKey :=
  ms.flatMap modelKeys

/-- Modelled from the spec: an opaque molecule handle (element list, 3D
coordinates, bond graph, hydrogen/3D state).  The external
collaborators' per-molecule behaviour is abstracted into the handle:
`missingH` is how many hydrogens valence completion would add,
`embedFails` / `baselineFails` / `forwardFails` record whether the
embedding collaborator, the semi-empirical engine, or a network forward
pass fails on this molecule. -/
structure Molecule where
  atoms : List Nat
  coords : List (Int × Int × Int)
  bonds : List (Nat × Nat)
  explicitH : Bool
  has3d : Bool
  missingH : Nat
  embedFails : Bool
  baselineFails : Bool
  forwardFails : Bool
  deriving DecidableEq, Repr, Inhabited

/-- A property value: a per-molecule scalar or a per-atom/per-bond
vector. -/
inductive Value where
  | scalar (x : Int)
  | vec (xs : List Int)
  deriving DecidableEq, Repr, Inhabited

/-- Modelled from the spec: the facade's configuration surface, with the
defaults documented in `calculator_options.ipynb` (`tasks=None`,
`delta=True`, `force3d=True`, `addh=True`, `xtbopt=False`,
`return_optmols=False`, `models=None`). -/
structure Config where
  tasks : Option (List PropertyKey) := none
  delta : Bool := true
  force3d : Bool := true
  addh : Bool := true
  xtbopt : Bool := false
  return_optmols : Bool := false
  models : Option (List ModelId) := none
  deriving DecidableEq, Repr, Inhabited

/-- The calculator's default configuration. -/
def defaultConfig : Config := {}

/-- A configuration is valid unless both `tasks` and `models` are set
(mutually exclusive options). -/
def validConfig (cfg : Config) : Bool :=
  !(cfg.tasks.isSome && cfg.models.isSome)

/-- Modelled from the spec: the error taxonomy's configuration error for
supplying both `tasks` and `models`. -/
inductive ConfigError where
  | bothTasksAndModels
  deriving DecidableEq, Repr

/-- The requested PropertyKeys of a configuration: the `tasks` list if
given (`None` means all keys); if `models` is given instead, the keys
are inferred from the models' declared outputs. -/
def requestedKeys (cfg : Config) : List PropertyKey :=
  match cfg.models with
  | some ms => inferredKeys ms
  | none => cfg.tasks.getD allKeys

/-- The resolved TaskPlan of a configuration (computed once from the
configuration, not per batch). -/
def plan (cfg : Config) : List ModelId :=
  match cfg.models with
  | some ms => resolveModels ms
  | none => resolve cfg.delta (cfg.tasks.getD allKeys)

/-! ## MoleculeNormalizer -/

/-- Modelled from the spec: valence completion — add the missing
explicit hydrogens (element 1, placeholder coordinates) to a molecule
that lacks them; a molecule that already has explicit hydrogens is
returned unchanged. -/
def addHs (m : Molecule) : Molecule :=
  if m.explicitH then m
  else { m with
    atoms := m.atoms ++ List.replicate m.missingH 1,
    coords := m.coords ++ List.replicate m.missingH (0, 0, 0),
    explicitH := true,
    missingH := 0 }

/-- Deterministic stand-in for the external MMFF94 force-field embedding
collaborator: a 3D conformation computed from the element list. -/
def mmff94Coords (m : Molecule) : List (Int × Int × Int) :=
  m.atoms.map fun a => ((a : Int), 0, 0)

/-- Modelled from the spec: 3D embedding — a molecule that already has a
3D conformation is unchanged; otherwise the force-field collaborator
either fails (`none`) or produces MMFF94 coordinates. -/
def embed3d (m : Molecule) : Option Molecule :=
  if m.has3d then some m
  else if m.embedFails then none
  else some { m with coords := mmff94Coords m, has3d := true }

/-- Modelled from the spec: `MoleculeNormalizer` per molecule — add
hydrogens when `addh` is set, then embed a 3D conformation when
`force3d` is set; `none` marks the molecule failed (excluded from all
downstream stages). -/
def normalizeMol (cfg : Config) (m : Molecule) : Option Molecule :=
  let m1 := if cfg.addh then addHs m else m
  if cfg.force3d then embed3d m1 else some m1

/-! ## BaselineRunner -/

/-- Deterministic stand-in for the xTB-optimized geometry of a
molecule. -/
def xtbCoords (m : Molecule) : List (Int × Int × Int) :=
  m.atoms.map fun a => ((a : Int), (a : Int), 1)

/-- Index of each property key (used by the deterministic stand-ins for
the external collaborators and the normalization statistics). -/
def keyIdx : PropertyKey → Int
  | .E_form => 0
  | .E_homo => 1
  | .E_lumo => 2
  | .E_gap => 3
  | .dipole => 4
  | .charges => 5
  | .wbo => 6

/-- Deterministic stand-in for a scalar baseline property computed by
the semi-empirical engine. -/
def baselineScalar (m : Molecule) (k : PropertyKey) : Int :=
  m.atoms.foldl (fun s a => s + (a : Int)) 0 + keyIdx k

/-- Deterministic stand-in for the semi-empirical engine's per-property
output on a given geometry: scalars per molecule, charges per atom,
bond orders per bond. -/
def baselineValue (m : Molecule) : PropertyKey → Value
  | .charges => .vec (m.atoms.map fun a => (a : Int))
  | .wbo => .vec (m.bonds.map fun _ => 1)
  | k => .scalar (baselineScalar m k)

/-- Whether the baseline engine runs at all: in delta mode, or when an
xTB-optimized geometry is explicitly requested. -/
def baselineActive (cfg : Config) : Bool :=
  cfg.delta || cfg.xtbopt

/-- With `optimize` set, the xTB-optimized geometry replaces the
molecule's coordinates for every subsequent stage; otherwise the input
geometry is kept. -/
def xtbResultMol (w : Molecule) (optimize : Bool) : Molecule :=
  if optimize then { w with coords := xtbCoords w } else w

/-- Modelled from the spec: `BaselineRunner` per molecule — one
invocation of the semi-empirical engine computes all baseline
properties (on the optimized geometry when `optimize` is set); engine
failure is caught and reported as `none`. -/
def xtbRun (w : Molecule) (optimize : Bool) : Option (Molecule × (PropertyKey → Value)) :=
  if w.baselineFails then none
  else some (xtbResultMol w optimize, baselineValue (xtbResultMol w optimize))

/-- The per-molecule preparation pipeline: normalization, then (when the
baseline is active) the baseline run.  Returns the working molecule for
model input and the baseline properties when they were computed; `none`
marks the molecule failed. -/
def molPrepared (cfg : Config) (m : Molecule) :
    Option (Molecule × Option (PropertyKey → Value)) :=
  (normalizeMol cfg m).bind fun w =>
    if baselineActive cfg then
      (xtbRun w cfg.xtbopt).map fun wp => (wp.1, some wp.2)
    else some (w, none)

/-- Whether the pipeline marks a molecule failed: normalization or
baseline failure, or a network forward-pass failure. -/
def molFailed (cfg : Config) (m : Molecule) : Bool :=
  !(molPrepared cfg m).isSome || m.forwardFails

/-! ## ModelRunner -/

/-- Modelled from the spec: each model output is tagged as a correction
term (delta mode) or an absolute value (direct mode), so aggregation is
unambiguous. -/
inductive Tag where
  | correction
  | absolute
  deriving DecidableEq, Repr

/-- Index of each model (used by the deterministic network
stand-ins). -/
def modelIdx : ModelId → Int
  | .single_energy_delta => 0
  | .charges_delta => 1
  | .multitask_delta => 2
  | .wbo_delta => 3
  | .single_energy_direct => 4
  | .charges_direct => 5
  | .multitask_direct => 6
  | .wbo_direct => 7

/-- Deterministic stand-in for a trained network's raw (normalized)
per-molecule output for one PropertyKey. -/
def rawOut (w : Molecule) (mid : ModelId) : PropertyKey → Value
  | .charges => .vec (w.atoms.map fun a => (a : Int) - modelIdx mid)
  | .wbo => .vec (w.bonds.map fun _ => modelIdx mid)
  | k => .scalar ((w.atoms.length : Int) + keyIdx k + modelIdx mid)

/-- Per-property normalization scale (abstract stand-in for the stored
statistics in `delfta/models/norm.pt`). -/
def normScale (k : PropertyKey) : Int := keyIdx k + 2

/-- Per-property normalization mean (abstract stand-in for the stored
statistics in `delfta/models/norm.pt`). -/
def normMean (k : PropertyKey) : Int := keyIdx k - 1

/-- Modelled from the spec: de-normalization of a raw network output,
`physical_value = raw_output * scale + mean`, applied per PropertyKey,
independently (elementwise on vector-valued properties). -/
def denormValue (k : PropertyKey) : Value → Value
  | .scalar x => .scalar (x * normScale k + normMean k)
  | .vec xs => .vec (xs.map fun x => x * normScale k + normMean k)

/-- Modelled from the spec: `ModelRunner`'s de-normalized, tagged output
for one molecule and one PropertyKey: the owning model of the key is
invoked and its raw output de-normalized; in delta mode the output is
tagged as a correction (the runner never adds the baseline itself). -/
def modelOutput (cfg : Config) (w : Molecule) (k : PropertyKey) : Tag × Value :=
  ((if cfg.delta then Tag.correction else Tag.absolute),
   denormValue k (rawOut w (keyModel cfg.delta k) k))

/-! ## ResultAggregator -/

/-- Pointwise addition of a baseline value and a correction of the same
shape. -/
def addValue : Value → Value → Value
  | .scalar a, .scalar b => .scalar (a + b)
  | .vec as, .vec bs => .vec (as.zipWith (· + ·) bs)
  | v, _ => v

/-- Modelled from the spec: `ResultAggregator`'s per-value combination —
an absolute output is taken as is; a correction is added to the
baseline value of the same PropertyKey. -/
def aggregateValue (props? : Option (PropertyKey → Value)) (k : PropertyKey) :
    Tag × Value → Value
  | (Tag.absolute, v) => v
  | (Tag.correction, v) =>
    match props? with
    | some props => addValue (props k) v
    | none => v

/-- The final per-molecule value for one PropertyKey: `none` is the
failure sentinel for a molecule that failed at any stage; otherwise the
aggregated value. -/
def molValue (cfg : Config) (m : Molecule) (k : PropertyKey) : Option Value :=
  match molPrepared cfg m with
  | none => none
  | some (w, props?) =>
    if m.forwardFails then none
    else some (aggregateValue props? k (modelOutput cfg w k))

/-- One column of the BatchResult: the ordered, index-aligned sequence
of per-molecule values (or failure sentinels) for one PropertyKey. -/
def column (cfg : Config) (batch : List Molecule) (k : PropertyKey) : List (Option Value) :=
  batch.map fun m => molValue cfg m k

/-- The working molecule returned when `return_optmols` is set: the
prepared (hydrogen-completed, embedded, optionally xTB-optimized)
working copy; a failed molecule is returned as it came in. -/
def optMolOf (cfg : Config) (m : Molecule) : Molecule :=
  match molPrepared cfg m with
  | some (w, _) => w
  | none => m

/-! ## Execution trace -/

/-- One observable invocation of an external collaborator: a baseline
engine run, or a network forward pass of a model, on the molecule at a
batch index. -/
inductive Event where
  | xtb (i : Nat)
  | forward (mid : ModelId) (i : Nat)
  deriving DecidableEq, Repr

/-- The batch indices that reach the baseline stage: those whose
normalization succeeded. -/
def eligibleXtb (cfg : Config) (batch : List Molecule) : List Nat :=
  (List.range batch.length).filter fun i =>
    (normalizeMol cfg (batch.getD i default)).isSome

/-- The batch indices eligible for the model at position `j` of the
plan: prepared successfully, and not yet marked failed by an earlier
forward pass (a molecule whose forward pass fails is still invoked by
the first model, then excluded from all later ones). -/
def eligibleForward (cfg : Config) (batch : List Molecule) (j : Nat) : List Nat :=
  (List.range batch.length).filter fun i =>
    (molPrepared cfg (batch.getD i default)).isSome &&
    (!(batch.getD i default).forwardFails || j == 0)

/-- The forward-pass events of the plan's models, in plan order, each
model invoked once per eligible molecule. -/
def forwardEventsAux (cfg : Config) (batch : List Molecule) :
    List ModelId → Nat → List Event
  | [], _ => []
  | mid :: rest, j =>
    (eligibleForward cfg batch j).map (Event.forward mid) ++
      forwardEventsAux cfg batch rest (j + 1)

/-- The full invocation trace of one `predict` call: the baseline runs
(when the baseline is active), then the model forward passes in plan
order. -/
def predictTrace (cfg : Config) (batch : List Molecule) : List Event :=
  (if baselineActive cfg then (eligibleXtb cfg batch).map Event.xtb else []) ++
    forwardEventsAux cfg batch (plan cfg) 0

/-! ## DelftaCalculator facade -/

/-- The externally visible output of `predict`: the BatchResult (one
index-aligned column per requested PropertyKey) and, when requested,
the working molecules. -/
structure PredOutput where
  results : List (PropertyKey × List (Option Value))
  optmols : Option (List Molecule)
  deriving DecidableEq, Repr

/-- Modelled from the spec: `DelftaCalculator.predict` — the
configuration is checked first (both `tasks` and `models` set is a
configuration error raised before any computation, hence the empty
trace); otherwise the pipeline runs and produces one full-length column
per requested key, plus the working molecules when `return_optmols` is
set.  The first component is the invocation trace of the external
collaborators. -/
def predict (cfg : Config) (batch : List Molecule) :
    List Event × Except ConfigError PredOutput :=
  if cfg.tasks.isSome && cfg.models.isSome then
    ([], .error .bothTasksAndModels)
  else
    (predictTrace cfg batch,
     .ok { results := (requestedKeys cfg).map fun k => (k, column cfg batch k),
           optmols := if cfg.return_optmols then some (batch.map (optMolOf cfg)) else none })

/-- Modelled from the spec: the caller's object store.  Python molecules
are references into a heap of molecule objects; `predict` receives
references, reads the referenced objects, and allocates its working
copies as fresh objects (appended to the heap) instead of updating the
caller's entries in place.  Returns the post-call heap together with
`predict`'s result. -/
def predictOnHeap (cfg : Config) (heap : List Molecule) (refs : List Nat) :
    List Molecule × (List Event × Except ConfigError PredOutput) :=
  let batch := refs.map fun r => heap.getD r default
  (heap ++ batch.map fun m => (molPrepared cfg m).elim m Prod.fst,
   predict cfg batch)

/-- Whether an event is a baseline engine run. -/
def isXtb : Event → Bool
  | .xtb _ => true
  | .forward _ _ => false

/-- A sample input molecule (CO with two implicit hydrogens and no 3D
conformation) used to instantiate the verified properties. -/
def sampleMol : Molecule :=
  { atoms := [6, 8], coords := [(0, 0, 0), (0, 0, 0)], bonds := [(0, 1)],
    explicitH := false, has3d := false, missingH := 2,
    embedFails := false, baselineFails := false, forwardFails := false }

/-- The sample molecule with an injected baseline (engine) failure. -/
def sampleMolBaselineFail : Molecule :=
  { sampleMol with baselineFails := true }

/-! ## Resolver lemmas -/

theorem mem_resolve {mode : Bool} {ks : List PropertyKey} {mid : ModelId} :
    mid ∈ resolve mode ks ↔
      mid ∈ modelOrder mode ∧ ∃ k, k ∈ ks ∧ keyModel mode k = mid := by
  simp [resolve, List.mem_filter, List.any_eq_true]

theorem keyModel_mem_modelOrder :
    ∀ (mode : Bool) (k : PropertyKey), keyModel mode k ∈ modelOrder mode := by
  decide

theorem mem_modelKeys_keyModel :
    ∀ (mode : Bool) (k : PropertyKey), k ∈ modelKeys (keyModel mode k) := by
  decide

theorem keyModel_eq_of_mem_modelKeys :
    ∀ (mode : Bool) (mid : ModelId) (k : PropertyKey),
      k ∈ modelKeys mid → modelMode mid = mode → keyModel mode k = mid := by
  decide

theorem mem_modelOrder_of_mode :
    ∀ (mid : ModelId) (mode : Bool), modelMode mid = mode → mid ∈ modelOrder mode := by
  decide

theorem exists_key_of_model :
    ∀ mid : ModelId, ∃ k, k ∈ modelKeys mid ∧ keyModel (modelMode mid) k = mid := by
  decide

/-- Claim C5 — Exclusivity: supplying both `tasks` and `models` to the
facade raises the configuration error before any computation starts:
`predict` returns the error and the invocation trace is empty (no
normalization, baseline run, or model forward pass is performed). -/
theorem tasks_models_exclusive (cfg : Config) (batch : List Molecule)
    (ht : cfg.tasks.isSome = true) (hm : cfg.models.isSome = true) :
    predict cfg batch = ([], Except.error ConfigError.bothTasksAndModels) := by
  simp [predict, ht, hm]

theorem tasks_models_exclusive_witness :
    ({ defaultConfig with
        tasks := some [PropertyKey.E_form],
        models := some [ModelId.single_energy_delta] } : Config).tasks.isSome = true ∧
    ({ defaultConfig with
        tasks := some [PropertyKey.E_form],
        models := some [ModelId.single_energy_delta] } : Config).models.isSome = true ∧
    predict
      { defaultConfig with
        tasks := some [PropertyKey.E_form],
        models := some [ModelId.single_energy_delta] } [] =
      ([], Except.error ConfigError.bothTasksAndModels) :=
  ⟨rfl, rfl,
    tasks_models_exclusive
      { defaultConfig with
        tasks := some [PropertyKey.E_form],
        models := some [ModelId.single_energy_delta] } [] rfl rfl⟩

/-- Claim C6 — TaskResolver determinism and minimality: `resolve` is a
pure function of `(mode, requested-key-set)` alone (its type takes no
batch), two requests with the same key-set membership yield the same
model set under order-independent (membership) equality, and no model is
in the plan unless at least one of its PropertyKeys was requested. -/
theorem resolve_deterministic_minimal (mode : Bool) (ks1 ks2 : List PropertyKey)
    (hset : ∀ k, k ∈ ks1 ↔ k ∈ ks2) :
    (∀ mid, mid ∈ resolve mode ks1 ↔ mid ∈ resolve mode ks2) ∧
    ∀ mid, mid ∈ resolve mode ks1 → ∃ k, k ∈ ks1 ∧ k ∈ modelKeys mid := by
  constructor
  · intro mid
    rw [mem_resolve, mem_resolve]
    constructor
    · rintro ⟨ho, k, hk, he⟩
      exact ⟨ho, k, (hset k).mp hk, he⟩
    · rintro ⟨ho, k, hk, he⟩
      exact ⟨ho, k, (hset k).mpr hk, he⟩
  · intro mid hmid
    rcases mem_resolve.mp hmid with ⟨-, k, hk, he⟩
    exact ⟨k, hk, he ▸ mem_modelKeys_keyModel mode k⟩

theorem resolve_deterministic_minimal_witness :
    (∀ k : PropertyKey,
      k ∈ [PropertyKey.E_homo, PropertyKey.dipole] ↔
        k ∈ [PropertyKey.dipole, PropertyKey.E_homo, PropertyKey.dipole]) ∧
    ((∀ mid, mid ∈ resolve true [PropertyKey.E_homo, PropertyKey.dipole] ↔
        mid ∈ resolve true [PropertyKey.dipole, PropertyKey.E_homo, PropertyKey.dipole]) ∧
      ∀ mid, mid ∈ resolve true [PropertyKey.E_homo, PropertyKey.dipole] →
        ∃ k, k ∈ [PropertyKey.E_homo, PropertyKey.dipole] ∧ k ∈ modelKeys mid) :=
  ⟨by decide,
    resolve_deterministic_minimal true
      [PropertyKey.E_homo, PropertyKey.dipole]
      [PropertyKey.dipole, PropertyKey.E_homo, PropertyKey.dipole] (by decide)⟩

/-- Claim C7 — the two TaskResolver entry points are consistent: for an
explicit model list (each of the given mode), the plan obtained by
loading the models directly equals, under order-independent
(membership) equality, the plan obtained by requesting the
PropertyKeys inferred from the models' declared outputs via `tasks`. -/
theorem resolve_entry_points_consistent (mode : Bool) (ms : List ModelId)
    (hmode : ∀ mid, mid ∈ ms → modelMode mid = mode) :
    ∀ mid, mid ∈ resolveModels ms ↔ mid ∈ resolve mode (inferredKeys ms) := by
  intro mid
  rw [resolveModels, List.mem_dedup, mem_resolve]
  constructor
  · intro hmem
    have hm := hmode mid hmem
    rcases exists_key_of_model mid with ⟨k, hk, -⟩
    refine ⟨mem_modelOrder_of_mode mid mode hm, k, ?_, ?_⟩
    · simp only [inferredKeys, List.mem_flatMap]
      exact ⟨mid, hmem, hk⟩
    · exact keyModel_eq_of_mem_modelKeys mode mid k hk hm
  · rintro ⟨-, k, hk, he⟩
    simp only [inferredKeys, List.mem_flatMap] at hk
    rcases hk with ⟨mid', hmid', hk'⟩
    have : keyModel mode k = mid' :=
      keyModel_eq_of_mem_modelKeys mode mid' k hk' (hmode mid' hmid')
    rw [← he, this]
    exact hmid'

theorem resolve_entry_points_consistent_witness :
    (∀ mid, mid ∈ [ModelId.multitask_delta, ModelId.single_energy_delta] →
      modelMode mid = true) ∧
    ∀ mid, mid ∈ resolveModels [ModelId.multitask_delta, ModelId.single_energy_delta] ↔
      mid ∈ resolve true (inferredKeys [ModelId.multitask_delta, ModelId.single_energy_delta]) :=
  ⟨by decide,
    resolve_entry_points_consistent true
      [ModelId.multitask_delta, ModelId.single_energy_delta] (by decide)⟩

/-! ## BatchResult shape -/

theorem lookup_map_pair {α β : Type} [DecidableEq α] (f : α → β) (ks : List α) (k : α)
    (hk : k ∈ ks) : (ks.map fun x => (x, f x)).lookup k = some (f k) := by
  induction ks with
  | nil => simp at hk
  | cons a t ih =>
    rcases List.mem_cons.mp hk with h | h
    · subst h
      simp [List.lookup]
    · by_cases he : a = k
      · subst he
        simp [List.lookup]
      · have hba : (k == a) = false := by
          rw [beq_eq_false_iff_ne]
          exact fun hek => he hek.symm
        simp [List.lookup, hba, ih h]

theorem validConfig_cond {cfg : Config} (hv : validConfig cfg = true) :
    (cfg.tasks.isSome && cfg.models.isSome) = false := by
  rw [validConfig] at hv
  cases h : (cfg.tasks.isSome && cfg.models.isSome)
  · rfl
  · rw [h] at hv
    exact absurd hv (by decide)

theorem getElem?_of_getD {α : Type} [Inhabited α] {l : List α} {i : Nat} (hi : i < l.length) :
    l[i]? = some (l.getD i default) := by
  rw [List.getD_eq_getElem?_getD, List.getElem?_eq_getElem hi]
  rfl

/-- Claim C1 — BatchResult completeness: for every batch and every
requested PropertyKey, `predict` succeeds and maps the key to an
ordered sequence of length equal to the number of input molecules,
index-aligned with the input batch, holding at every index either a
value or the failure sentinel (`none`). -/
theorem batchResult_length (cfg : Config) (batch : List Molecule) (k : PropertyKey)
    (hv : validConfig cfg = true) (hk : k ∈ requestedKeys cfg) :
    ∃ out, (predict cfg batch).2 = Except.ok out ∧
      out.results.lookup k = some (column cfg batch k) ∧
      (column cfg batch k).length = batch.length ∧
      ∀ i, i < batch.length →
        (column cfg batch k)[i]? = some (molValue cfg (batch.getD i default) k) := by
  refine ⟨{ results := (requestedKeys cfg).map fun k => (k, column cfg batch k),
            optmols := if cfg.return_optmols then some (batch.map (optMolOf cfg))
                       else none }, ?_, ?_, ?_, ?_⟩
  · simp only [predict, validConfig_cond hv, Bool.false_eq_true, if_false]
  · exact lookup_map_pair _ _ _ hk
  · simp [column]
  · intro i hi
    rw [column, List.getElem?_map, getElem?_of_getD hi]
    rfl

theorem batchResult_length_witness :
    validConfig defaultConfig = true ∧
    PropertyKey.E_form ∈ requestedKeys defaultConfig ∧
    ∃ out, (predict defaultConfig [sampleMol]).2 = Except.ok out ∧
      out.results.lookup PropertyKey.E_form =
        some (column defaultConfig [sampleMol] PropertyKey.E_form) ∧
      (column defaultConfig [sampleMol] PropertyKey.E_form).length = [sampleMol].length ∧
      ∀ i, i < [sampleMol].length →
        (column defaultConfig [sampleMol] PropertyKey.E_form)[i]? =
          some (molValue defaultConfig ([sampleMol].getD i default) PropertyKey.E_form) :=
  ⟨rfl, by decide,
    batchResult_length defaultConfig [sampleMol] PropertyKey.E_form rfl (by decide)⟩

/-- Claim C8 — no mutation of the caller's molecules: in the object
store modelled by `predictOnHeap`, every object the caller holds a
reference to is unchanged after `predict` returns; the working copies
(hydrogen addition, embedding, optimization) are fresh allocations
appended after the caller's objects. -/
theorem predict_no_mutation (cfg : Config) (heap : List Molecule) (refs : List Nat) :
    (∀ r, r < heap.length → ((predictOnHeap cfg heap refs).1)[r]? = heap[r]?) ∧
    ((predictOnHeap cfg heap refs).1).length = heap.length + refs.length := by
  constructor
  · intro r hr
    simp only [predictOnHeap]
    exact List.getElem?_append_left hr
  · simp [predictOnHeap]

theorem predict_no_mutation_witness :
    0 < [sampleMol].length ∧
    ((predictOnHeap defaultConfig [sampleMol] [0]).1)[0]? = [sampleMol][0]? :=
  ⟨by decide,
    (predict_no_mutation defaultConfig [sampleMol] [0]).1 0 (by decide)⟩

/-! ## Failure isolation -/

theorem molValue_eq_none_of_failed {cfg : Config} {m : Molecule} {k : PropertyKey}
    (hf : molFailed cfg m = true) : molValue cfg m k = none := by
  unfold molValue
  rw [molFailed] at hf
  cases hp : molPrepared cfg m with
  | none => rfl
  | some wp =>
    rw [hp] at hf
    simp only [Option.isSome_some, Bool.not_true, Bool.false_or] at hf
    obtain ⟨w, props?⟩ := wp
    simp [hf]

/-- Claim C2 — failure isolation: replacing the molecule at index `i`
by one on which the pipeline fails (geometry embedding, baseline
engine, or network forward pass) never turns `predict` into an error;
every requested key's column still covers the whole batch, holds the
failure sentinel at index `i`, and is unchanged at every other
index. -/
theorem failure_isolation (cfg : Config) (batch : List Molecule) (i : Nat) (m' : Molecule)
    (hv : validConfig cfg = true) (hi : i < batch.length)
    (hf : molFailed cfg m' = true) :
    ∃ out out',
      (predict cfg batch).2 = Except.ok out ∧
      (predict cfg (batch.set i m')).2 = Except.ok out' ∧
      ∀ k, k ∈ requestedKeys cfg →
        out.results.lookup k = some (column cfg batch k) ∧
        out'.results.lookup k = some (column cfg (batch.set i m') k) ∧
        (column cfg (batch.set i m') k)[i]? = some none ∧
        ∀ j, j ≠ i → (column cfg (batch.set i m') k)[j]? = (column cfg batch k)[j]? := by
  refine ⟨_, _,
    (by simp only [predict, validConfig_cond hv, Bool.false_eq_true, if_false] :
      (predict cfg batch).2 = Except.ok
        { results := (requestedKeys cfg).map fun k => (k, column cfg batch k),
          optmols := if cfg.return_optmols then some (batch.map (optMolOf cfg)) else none }),
    (by simp only [predict, validConfig_cond hv, Bool.false_eq_true, if_false] :
      (predict cfg (batch.set i m')).2 = Except.ok
        { results := (requestedKeys cfg).map fun k => (k, column cfg (batch.set i m') k),
          optmols := if cfg.return_optmols then
            some ((batch.set i m').map (optMolOf cfg)) else none }), ?_⟩
  intro k hk
  refine ⟨lookup_map_pair _ _ _ hk, lookup_map_pair _ _ _ hk, ?_, ?_⟩
  · rw [column, List.map_set]
    rw [List.getElem?_set_self (by simpa using hi)]
    rw [molValue_eq_none_of_failed hf]
  · intro j hj
    rw [column, column, List.map_set, List.getElem?_set_ne (fun h => hj h.symm)]

theorem failure_isolation_witness :
    validConfig defaultConfig = true ∧
    1 < [sampleMol, sampleMol].length ∧
    molFailed defaultConfig sampleMolBaselineFail = true ∧
    ∃ out out',
      (predict defaultConfig [sampleMol, sampleMol]).2 = Except.ok out ∧
      (predict defaultConfig ([sampleMol, sampleMol].set 1 sampleMolBaselineFail)).2 =
        Except.ok out' ∧
      ∀ k, k ∈ requestedKeys defaultConfig →
        out.results.lookup k =
          some (column defaultConfig [sampleMol, sampleMol] k) ∧
        out'.results.lookup k =
          some (column defaultConfig ([sampleMol, sampleMol].set 1 sampleMolBaselineFail) k) ∧
        (column defaultConfig ([sampleMol, sampleMol].set 1 sampleMolBaselineFail) k)[1]? =
          some none ∧
        ∀ j, j ≠ 1 →
          (column defaultConfig ([sampleMol, sampleMol].set 1 sampleMolBaselineFail) k)[j]? =
            (column defaultConfig [sampleMol, sampleMol] k)[j]? :=
  ⟨rfl, by decide, by decide,
    failure_isolation defaultConfig [sampleMol, sampleMol] 1 sampleMolBaselineFail
      rfl (by decide) (by decide)⟩

/-! ## Delta consistency -/

theorem baselineValue_of_scalar {m : Molecule} {k : PropertyKey} (hs : isScalar k = true) :
    baselineValue m k = Value.scalar (baselineScalar m k) := by
  cases k <;> first
    | rfl
    | exact absurd hs (by decide)

theorem rawOut_of_scalar {w : Molecule} {mid : ModelId} {k : PropertyKey}
    (hs : isScalar k = true) :
    rawOut w mid k = Value.scalar ((w.atoms.length : Int) + keyIdx k + modelIdx mid) := by
  cases k <;> first
    | rfl
    | exact absurd hs (by decide)

theorem molPrepared_props_eq {cfg : Config} {m w : Molecule} {props : PropertyKey → Value}
    (hp : molPrepared cfg m = some (w, some props)) : props = baselineValue w := by
  rw [molPrepared] at hp
  cases hn : normalizeMol cfg m <;> rw [hn] at hp
  · exact absurd hp (by simp)
  · rename_i w1
    rw [Option.some_bind] at hp
    by_cases hb : baselineActive cfg = true
    · rw [if_pos hb, xtbRun] at hp
      by_cases hbf : w1.baselineFails = true
      · rw [if_pos hbf] at hp
        exact absurd hp (by simp)
      · rw [if_neg hbf, Option.map_some'] at hp
        simp only [Option.some.injEq, Prod.mk.injEq, Option.some.injEq] at hp
        rw [← hp.2, ← hp.1]
    · rw [if_neg hb] at hp
      simp only [Option.some.injEq, Prod.mk.injEq] at hp
      exact absurd hp.2 (by simp)

theorem molPrepared_isSome_of_not_failed {cfg : Config} {m : Molecule}
    (hnf : molFailed cfg m = false) :
    (molPrepared cfg m).isSome = true ∧ m.forwardFails = false := by
  rw [molFailed] at hnf
  rcases Bool.or_eq_false_iff.mp hnf with ⟨h1, h2⟩
  refine ⟨?_, h2⟩
  cases h : (molPrepared cfg m).isSome
  · rw [h] at h1
    exact absurd h1 (by decide)
  · rfl

/-- Claim C3 — delta consistency: in delta mode, for a non-failed
molecule and a requested scalar key, the baseline stage yields a scalar
baseline value `b`, the ModelRunner yields an output tagged as a
correction (never pre-added to the baseline) with scalar value `c`, and
the final aggregated value in the BatchResult column is exactly
`b + c`. -/
theorem delta_consistency (cfg : Config) (batch : List Molecule) (i : Nat) (k : PropertyKey)
    (hv : validConfig cfg = true) (hd : cfg.delta = true)
    (hk : k ∈ requestedKeys cfg) (hs : isScalar k = true)
    (hi : i < batch.length)
    (hnf : molFailed cfg (batch.getD i default) = false) :
    ∃ out w props b c,
      (predict cfg batch).2 = Except.ok out ∧
      out.results.lookup k = some (column cfg batch k) ∧
      molPrepared cfg (batch.getD i default) = some (w, some props) ∧
      props k = Value.scalar b ∧
      modelOutput cfg w k = (Tag.correction, Value.scalar c) ∧
      (column cfg batch k)[i]? = some (some (Value.scalar (b + c))) := by
  obtain ⟨hsome, hff⟩ := molPrepared_isSome_of_not_failed hnf
  obtain ⟨⟨w, props?⟩, hp⟩ := Option.isSome_iff_exists.mp hsome
  have hprops : ∃ props, props? = some props := by
    rw [molPrepared] at hp
    cases hn : normalizeMol cfg (batch.getD i default) <;> rw [hn] at hp
    · exact absurd hp (by simp)
    · rename_i w1
      have hb : baselineActive cfg = true := by simp [baselineActive, hd]
      rw [Option.some_bind, if_pos hb, xtbRun] at hp
      by_cases hbf : w1.baselineFails = true
      · rw [if_pos hbf] at hp
        exact absurd hp (by simp)
      · rw [if_neg hbf, Option.map_some'] at hp
        simp only [Option.some.injEq, Prod.mk.injEq] at hp
        exact ⟨_, hp.2.symm⟩
  obtain ⟨props, rfl⟩ := hprops
  have hpv : props = baselineValue w := molPrepared_props_eq hp
  refine ⟨{ results := (requestedKeys cfg).map fun k => (k, column cfg batch k),
            optmols := if cfg.return_optmols then some (batch.map (optMolOf cfg))
                       else none }, w, props,
    baselineScalar w k,
    ((w.atoms.length : Int) + keyIdx k + modelIdx (keyModel cfg.delta k)) * normScale k
      + normMean k, ?_, ?_, hp, ?_, ?_, ?_⟩
  · simp only [predict, validConfig_cond hv, Bool.false_eq_true, if_false]
  · exact lookup_map_pair _ _ _ hk
  · rw [hpv, baselineValue_of_scalar hs]
  · rw [modelOutput, hd, rawOut_of_scalar hs]
    rfl
  · rw [column, List.getElem?_map, getElem?_of_getD hi, Option.map_some']
    unfold molValue
    rw [hp]
    simp only [hff, Bool.false_eq_true, if_false]
    simp [modelOutput, hd, rawOut_of_scalar hs, denormValue, aggregateValue, hpv,
      baselineValue_of_scalar hs, addValue]

theorem delta_consistency_witness :
    validConfig defaultConfig = true ∧
    defaultConfig.delta = true ∧
    PropertyKey.E_gap ∈ requestedKeys defaultConfig ∧
    isScalar PropertyKey.E_gap = true ∧
    0 < [sampleMol].length ∧
    molFailed defaultConfig ([sampleMol].getD 0 default) = false ∧
    ∃ out w props b c,
      (predict defaultConfig [sampleMol]).2 = Except.ok out ∧
      out.results.lookup PropertyKey.E_gap =
        some (column defaultConfig [sampleMol] PropertyKey.E_gap) ∧
      molPrepared defaultConfig ([sampleMol].getD 0 default) = some (w, some props) ∧
      props PropertyKey.E_gap = Value.scalar b ∧
      modelOutput defaultConfig w PropertyKey.E_gap = (Tag.correction, Value.scalar c) ∧
      (column defaultConfig [sampleMol] PropertyKey.E_gap)[0]? =
        some (some (Value.scalar (b + c))) :=
  ⟨rfl, rfl, by decide, rfl, by decide, by decide,
    delta_consistency defaultConfig [sampleMol] 0 PropertyKey.E_gap
      rfl rfl (by decide) rfl (by decide) (by decide)⟩

/-! ## Returned molecules -/

theorem addHs_explicitH (m : Molecule) : (addHs m).explicitH = true := by
  rw [addHs]
  by_cases h : m.explicitH = true
  · rw [if_pos h]
    exact h
  · rw [if_neg h]

theorem embed3d_explicitH {m w : Molecule} (h : embed3d m = some w) :
    w.explicitH = m.explicitH := by
  rw [embed3d] at h
  by_cases h3 : m.has3d = true
  · rw [if_pos h3] at h
    cases h
    rfl
  · rw [if_neg h3] at h
    by_cases hf : m.embedFails = true
    · rw [if_pos hf] at h
      cases h
    · rw [if_neg hf] at h
      cases h
      rfl

theorem embed3d_has3d {m w : Molecule} (h : embed3d m = some w) : w.has3d = true := by
  rw [embed3d] at h
  by_cases h3 : m.has3d = true
  · rw [if_pos h3] at h
    cases h
    exact h3
  · rw [if_neg h3] at h
    by_cases hf : m.embedFails = true
    · rw [if_pos hf] at h
      cases h
    · rw [if_neg hf] at h
      cases h
      rfl

theorem normalizeMol_explicitH {cfg : Config} {m w : Molecule}
    (hn : normalizeMol cfg m = some w) (ha : cfg.addh = true) : w.explicitH = true := by
  rw [normalizeMol, ha] at hn
  simp only [if_true] at hn
  by_cases h3 : cfg.force3d = true
  · rw [if_pos h3] at hn
    rw [embed3d_explicitH hn]
    exact addHs_explicitH m
  · rw [if_neg h3] at hn
    cases hn
    exact addHs_explicitH m

theorem normalizeMol_has3d {cfg : Config} {m w : Molecule}
    (hn : normalizeMol cfg m = some w) (h3 : cfg.force3d = true) : w.has3d = true := by
  rw [normalizeMol, h3] at hn
  simp only [if_true] at hn
  exact embed3d_has3d hn

theorem molPrepared_no_opt {cfg : Config} {m w : Molecule}
    {props? : Option (PropertyKey → Value)} (hx : cfg.xtbopt = false)
    (hp : molPrepared cfg m = some (w, props?)) : normalizeMol cfg m = some w := by
  rw [molPrepared] at hp
  cases hn : normalizeMol cfg m <;> rw [hn] at hp
  · exact absurd hp (by simp)
  · rename_i w1
    rw [Option.some_bind] at hp
    by_cases hb : baselineActive cfg = true
    · rw [if_pos hb, xtbRun, hx] at hp
      by_cases hbf : w1.baselineFails = true
      · rw [if_pos hbf] at hp
        exact absurd hp (by simp)
      · rw [if_neg hbf, Option.map_some'] at hp
        simp only [Option.some.injEq, Prod.mk.injEq, xtbResultMol, if_false,
          Bool.false_eq_true] at hp
        exact congrArg some hp.1
    · rw [if_neg hb] at hp
      simp only [Option.some.injEq, Prod.mk.injEq] at hp
      exact congrArg some hp.1

/-- Claim C9 — `return_optmols` without `xtbopt`: `predict` also returns
a molecule list, index-aligned with the input batch, and for every
non-failed molecule the returned object is exactly the normalization
output — the force-field (MMFF94) embedded, hydrogen-completed working
copy, not an xTB-optimized geometry. -/
theorem return_optmols_geometry (cfg : Config) (batch : List Molecule)
    (hv : validConfig cfg = true) (hr : cfg.return_optmols = true) :
    ∃ out, (predict cfg batch).2 = Except.ok out ∧
      out.optmols = some (batch.map (optMolOf cfg)) ∧
      (batch.map (optMolOf cfg)).length = batch.length ∧
      (cfg.xtbopt = false → ∀ i, i < batch.length →
        molFailed cfg (batch.getD i default) = false →
          (batch.map (optMolOf cfg))[i]? = some (optMolOf cfg (batch.getD i default)) ∧
          normalizeMol cfg (batch.getD i default) =
            some (optMolOf cfg (batch.getD i default)) ∧
          (cfg.addh = true → (optMolOf cfg (batch.getD i default)).explicitH = true) ∧
          (cfg.force3d = true → (optMolOf cfg (batch.getD i default)).has3d = true)) := by
  refine ⟨{ results := (requestedKeys cfg).map fun k => (k, column cfg batch k),
            optmols := if cfg.return_optmols then some (batch.map (optMolOf cfg))
                       else none }, ?_, ?_, ?_, ?_⟩
  · simp only [predict, validConfig_cond hv, Bool.false_eq_true, if_false]
  · rw [hr]
    rfl
  · exact List.length_map _ _
  · intro hx i hi hnf
    obtain ⟨hsome, -⟩ := molPrepared_isSome_of_not_failed hnf
    obtain ⟨⟨w, props?⟩, hp⟩ := Option.isSome_iff_exists.mp hsome
    have hw : optMolOf cfg (batch.getD i default) = w := by
      rw [optMolOf, hp]
    have hnorm : normalizeMol cfg (batch.getD i default) = some w :=
      molPrepared_no_opt hx hp
    refine ⟨?_, ?_, ?_, ?_⟩
    · rw [List.getElem?_map, getElem?_of_getD hi]
      rfl
    · rw [hw]
      exact hnorm
    · intro ha
      rw [hw]
      exact normalizeMol_explicitH hnorm ha
    · intro h3
      rw [hw]
      exact normalizeMol_has3d hnorm h3

theorem return_optmols_geometry_witness :
    validConfig defaultConfig = true ∧
    ({ defaultConfig with return_optmols := true } : Config).return_optmols = true ∧
    ∃ out,
      (predict { defaultConfig with return_optmols := true } [sampleMol]).2 =
        Except.ok out ∧
      out.optmols =
        some ([sampleMol].map (optMolOf { defaultConfig with return_optmols := true })) ∧
      ([sampleMol].map (optMolOf { defaultConfig with return_optmols := true })).length =
        [sampleMol].length ∧
      (({ defaultConfig with return_optmols := true } : Config).xtbopt = false →
        ∀ i, i < [sampleMol].length →
          molFailed { defaultConfig with return_optmols := true }
            ([sampleMol].getD i default) = false →
            ([sampleMol].map (optMolOf { defaultConfig with return_optmols := true }))[i]? =
              some (optMolOf { defaultConfig with return_optmols := true }
                ([sampleMol].getD i default)) ∧
            normalizeMol { defaultConfig with return_optmols := true }
              ([sampleMol].getD i default) =
              some (optMolOf { defaultConfig with return_optmols := true }
                ([sampleMol].getD i default)) ∧
            (({ defaultConfig with return_optmols := true } : Config).addh = true →
              (optMolOf { defaultConfig with return_optmols := true }
                ([sampleMol].getD i default)).explicitH = true) ∧
            (({ defaultConfig with return_optmols := true } : Config).force3d = true →
              (optMolOf { defaultConfig with return_optmols := true }
                ([sampleMol].getD i default)).has3d = true)) :=
  ⟨rfl, rfl,
    return_optmols_geometry { defaultConfig with return_optmols := true } [sampleMol]
      rfl rfl⟩

/-! ## Invocation counting -/

theorem count_nodup_mem {α : Type} [BEq α] [LawfulBEq α] {l : List α} {a : α}
    (hnd : l.Nodup) (h : a ∈ l) : l.count a = 1 := by
  induction l with
  | nil => simp at h
  | cons b t ih =>
    rcases List.mem_cons.mp h with rfl | hmem
    · rw [List.count_cons_self]
      rw [List.count_eq_zero.mpr (List.nodup_cons.mp hnd).1]
    · have hne : b ≠ a := fun he => (List.nodup_cons.mp hnd).1 (he ▸ hmem)
      rw [List.count_cons_of_ne (fun he => hne he.symm)]
      exact ih (List.nodup_cons.mp hnd).2 hmem

theorem count_map_xtb (l : List Nat) (i : Nat) :
    (l.map Event.xtb).count (Event.xtb i) = l.count i := by
  induction l with
  | nil => rfl
  | cons a t ih =>
    simp only [List.map_cons, List.count_cons, ih]
    by_cases h : a = i <;> simp [h]

theorem count_forward_map_xtb (l : List Nat) (mid : ModelId) (i : Nat) :
    (l.map Event.xtb).count (Event.forward mid i) = 0 :=
  List.count_eq_zero.mpr (by simp [List.mem_map])

theorem count_map_forward (l : List Nat) (mid' mid : ModelId) (i : Nat) :
    (l.map (Event.forward mid')).count (Event.forward mid i) =
      if mid' = mid then l.count i else 0 := by
  induction l with
  | nil => simp
  | cons a t ih =>
    by_cases h : mid' = mid
    · subst h
      simp only [List.map_cons, List.count_cons, ih, if_pos rfl]
      by_cases h2 : a = i <;> simp [h2]
    · simp only [List.map_cons, List.count_cons, ih, if_neg h]
      simp [h]

theorem count_xtb_aux (cfg : Config) (batch : List Molecule) (l : List ModelId)
    (j i : Nat) : (forwardEventsAux cfg batch l j).count (Event.xtb i) = 0 := by
  induction l generalizing j with
  | nil => rfl
  | cons mid rest ih =>
    rw [forwardEventsAux, List.count_append, ih]
    rw [List.count_eq_zero.mpr (by simp [List.mem_map] :
      Event.xtb i ∉ (eligibleForward cfg batch j).map (Event.forward mid))]

theorem count_forward_aux_not_mem (cfg : Config) (batch : List Molecule)
    {mid : ModelId} {i : Nat} (l : List ModelId) (j : Nat) (hnm : mid ∉ l) :
    (forwardEventsAux cfg batch l j).count (Event.forward mid i) = 0 := by
  induction l generalizing j with
  | nil => rfl
  | cons mid' rest ih =>
    rw [forwardEventsAux, List.count_append, count_map_forward,
      if_neg (show ¬mid' = mid from fun he =>
        hnm (by rw [he]; exact List.mem_cons_self mid rest)),
      ih _ (fun h => hnm (List.mem_cons_of_mem mid' h))]

theorem count_eligibleForward (cfg : Config) (batch : List Molecule) {i : Nat} (j : Nat)
    (hi : i < batch.length)
    (hsome : (molPrepared cfg (batch.getD i default)).isSome = true)
    (hff : (batch.getD i default).forwardFails = false) :
    (eligibleForward cfg batch j).count i = 1 := by
  apply count_nodup_mem (List.Nodup.filter _ (List.nodup_range _))
  simp only [eligibleForward, List.mem_filter, List.mem_range]
  refine ⟨hi, ?_⟩
  rw [hsome, hff]
  simp

theorem count_forward_aux_mem (cfg : Config) (batch : List Molecule)
    {mid : ModelId} {i : Nat} (l : List ModelId) (j : Nat)
    (hnd : l.Nodup) (hmem : mid ∈ l) (hi : i < batch.length)
    (hsome : (molPrepared cfg (batch.getD i default)).isSome = true)
    (hff : (batch.getD i default).forwardFails = false) :
    (forwardEventsAux cfg batch l j).count (Event.forward mid i) = 1 := by
  induction l generalizing j with
  | nil => simp at hmem
  | cons mid' rest ih =>
    rw [forwardEventsAux, List.count_append]
    rcases List.mem_cons.mp hmem with rfl | hmem'
    · rw [count_map_forward, if_pos rfl, count_eligibleForward cfg batch j hi hsome hff,
        count_forward_aux_not_mem cfg batch rest (j + 1) (List.nodup_cons.mp hnd).1]
    · have hne : mid' ≠ mid := fun he => (List.nodup_cons.mp hnd).1 (he ▸ hmem')
      rw [count_map_forward, if_neg hne,
        ih (j + 1) (List.nodup_cons.mp hnd).2 hmem']

theorem plan_nodup (cfg : Config) : (plan cfg).Nodup := by
  rw [plan]
  cases cfg.models
  · apply List.Nodup.filter
    cases cfg.delta <;> decide
  · exact List.nodup_dedup _

theorem normalize_isSome_of_prepared {cfg : Config} {m : Molecule}
    (h : (molPrepared cfg m).isSome = true) :
    (normalizeMol cfg m).isSome = true := by
  rw [molPrepared] at h
  cases hn : normalizeMol cfg m
  · rw [hn] at h
    simp at h
  · rfl

theorem predict_fst (cfg : Config) (batch : List Molecule) (hv : validConfig cfg = true) :
    (predict cfg batch).1 = predictTrace cfg batch := by
  simp only [predict, validConfig_cond hv, Bool.false_eq_true, if_false]

theorem predictTrace_xtb_count (cfg : Config) (batch : List Molecule) {i : Nat}
    (hb : baselineActive cfg = true) (hi : i < batch.length)
    (hn : (normalizeMol cfg (batch.getD i default)).isSome = true) :
    (predictTrace cfg batch).count (Event.xtb i) = 1 := by
  rw [predictTrace, List.count_append, if_pos hb, count_map_xtb, count_xtb_aux]
  apply count_nodup_mem (List.Nodup.filter _ (List.nodup_range _))
  simp only [eligibleXtb, List.mem_filter, List.mem_range]
  exact ⟨hi, hn⟩

theorem predictTrace_forward_count (cfg : Config) (batch : List Molecule)
    {i : Nat} {mid : ModelId} (hi : i < batch.length)
    (hsome : (molPrepared cfg (batch.getD i default)).isSome = true)
    (hff : (batch.getD i default).forwardFails = false)
    (hmem : mid ∈ plan cfg) :
    (predictTrace cfg batch).count (Event.forward mid i) = 1 := by
  rw [predictTrace, List.count_append]
  have h1 : (if baselineActive cfg then (eligibleXtb cfg batch).map Event.xtb
      else []).count (Event.forward mid i) = 0 := by
    by_cases hb : baselineActive cfg = true
    · rw [if_pos hb]
      exact count_forward_map_xtb _ mid i
    · rw [if_neg hb]
      rfl
  rw [h1, count_forward_aux_mem cfg batch (plan cfg) 0 (plan_nodup cfg) hmem hi hsome hff]

/-- Claim C4 — cost-sharing invariant: for a non-failed molecule, the
baseline engine is invoked exactly once (in delta mode), whatever the
requested key set is, and every model of the plan — including a
multi-task model that covers several requested keys — performs exactly
one forward invocation on that molecule, never one per requested
key. -/
theorem cost_sharing_invariant (cfg : Config) (batch : List Molecule) (i : Nat)
    (hv : validConfig cfg = true) (hi : i < batch.length)
    (hnf : molFailed cfg (batch.getD i default) = false) :
    (cfg.delta = true → (predict cfg batch).1.count (Event.xtb i) = 1) ∧
    ∀ mid, mid ∈ plan cfg → (predict cfg batch).1.count (Event.forward mid i) = 1 := by
  obtain ⟨hsome, hff⟩ := molPrepared_isSome_of_not_failed hnf
  rw [predict_fst cfg batch hv]
  constructor
  · intro hd
    exact predictTrace_xtb_count cfg batch (by simp [baselineActive, hd]) hi
      (normalize_isSome_of_prepared hsome)
  · intro mid hmem
    exact predictTrace_forward_count cfg batch hi hsome hff hmem

theorem cost_sharing_invariant_witness :
    validConfig defaultConfig = true ∧
    0 < [sampleMol].length ∧
    molFailed defaultConfig ([sampleMol].getD 0 default) = false ∧
    ((defaultConfig.delta = true →
        (predict defaultConfig [sampleMol]).1.count (Event.xtb 0) = 1) ∧
      ∀ mid, mid ∈ plan defaultConfig →
        (predict defaultConfig [sampleMol]).1.count (Event.forward mid 0) = 1) :=
  ⟨rfl, by decide, by decide,
    cost_sharing_invariant defaultConfig [sampleMol] 0 rfl (by decide) (by decide)⟩

/-! ## Default configuration execution -/

theorem filter_split_partition {α : Type} (p : α → Bool) (l1 l2 : List α)
    (h1 : ∀ e ∈ l1, p e = true) (h2 : ∀ e ∈ l2, p e = false) :
    l1 ++ l2 = (l1 ++ l2).filter p ++ (l1 ++ l2).filter (fun e => !(p e)) := by
  rw [List.filter_append, List.filter_append,
    List.filter_eq_self.mpr h1,
    List.filter_eq_nil_iff.mpr (fun a ha => by rw [h2 a ha]; exact Bool.false_ne_true),
    List.filter_eq_nil_iff.mpr (fun a ha => by rw [h1 a ha]; exact (by decide)),
    List.filter_eq_self.mpr (fun a ha => by rw [h2 a ha]; rfl)]
  simp

theorem isXtb_false_of_mem_aux (cfg : Config) (batch : List Molecule)
    (l : List ModelId) (j : Nat) :
    ∀ e ∈ forwardEventsAux cfg batch l j, isXtb e = false := by
  induction l generalizing j with
  | nil =>
    intro e he
    simp [forwardEventsAux] at he
  | cons mid rest ih =>
    intro e he
    rw [forwardEventsAux] at he
    rcases List.mem_append.mp he with h | h
    · obtain ⟨i, -, rfl⟩ := List.mem_map.mp h
      rfl
    · exact ih (j + 1) e h

/-- Claim C10 — default configuration execution: with the defaults
(`tasks=None` meaning all properties, `delta=True`), the plan is exactly
the four delta models `single_energy_delta`, `charges_delta`,
`multitask_delta`, `wbo_delta` in that fixed order; in the trace, every
baseline (xTB) run precedes every model forward pass; and for every
non-failed molecule the baseline runs exactly once and each of the four
models is invoked exactly once. -/
theorem default_plan_execution (batch : List Molecule) :
    plan defaultConfig =
      [ModelId.single_energy_delta, ModelId.charges_delta,
        ModelId.multitask_delta, ModelId.wbo_delta] ∧
    (predict defaultConfig batch).1 =
      ((predict defaultConfig batch).1.filter isXtb) ++
        ((predict defaultConfig batch).1.filter fun e => !(isXtb e)) ∧
    ∀ i, i < batch.length →
      molFailed defaultConfig (batch.getD i default) = false →
        (predict defaultConfig batch).1.count (Event.xtb i) = 1 ∧
        ∀ mid, mid ∈ plan defaultConfig →
          (predict defaultConfig batch).1.count (Event.forward mid i) = 1 := by
  refine ⟨by decide, ?_, ?_⟩
  · rw [predict_fst defaultConfig batch rfl, predictTrace,
      if_pos (show baselineActive defaultConfig = true from rfl)]
    apply filter_split_partition
    · intro e he
      obtain ⟨i, -, rfl⟩ := List.mem_map.mp he
      rfl
    · exact isXtb_false_of_mem_aux defaultConfig batch (plan defaultConfig) 0
  · intro i hi hnf
    obtain ⟨hsome, hff⟩ := molPrepared_isSome_of_not_failed hnf
    rw [predict_fst defaultConfig batch rfl]
    refine ⟨predictTrace_xtb_count defaultConfig batch rfl hi
      (normalize_isSome_of_prepared hsome), ?_⟩
    intro mid hmem
    exact predictTrace_forward_count defaultConfig batch hi hsome hff hmem

theorem default_plan_execution_witness :
    plan defaultConfig =
      [ModelId.single_energy_delta, ModelId.charges_delta,
        ModelId.multitask_delta, ModelId.wbo_delta] ∧
    0 < [sampleMol].length ∧
    molFailed defaultConfig ([sampleMol].getD 0 default) = false ∧
    (predict defaultConfig [sampleMol]).1.count (Event.xtb 0) = 1 ∧
    (predict defaultConfig [sampleMol]).1.count
      (Event.forward ModelId.multitask_delta 0) = 1 :=
  ⟨(default_plan_execution [sampleMol]).1, by decide, by decide,
    ((default_plan_execution [sampleMol]).2.2 0 (by decide) (by decide)).1,
    ((default_plan_execution [sampleMol]).2.2 0 (by decide) (by decide)).2
      ModelId.multitask_delta (by decide)⟩

end Delfta
